import Mathlib

/-!
Shallow embedding of the rocforge-clamp core (anchor state machine,
entropy telemetry recorder, temporal aggregator, temporal scoring) and
proofs of the specification claims about it.

Modelling conventions:
* `double` values are modelled as exact rationals (`ℚ`): the algorithms are
  specified and verified over exact arithmetic; every `ℚ` is finite, so the
  `std::isfinite` guards of the code are vacuously true in the model.
* Timestamps (`std::chrono::system_clock::time_point`) are modelled as `ℚ`
  millisecond values supplied by the environment; the tick value `0` models a
  default-constructed (unset) time point.
* `EntropyTracker::generateSeed()` is clock/thread dependent; the seed each
  `lock` obtains is therefore an input of the model (any `u64`, including 0).
* Console logging (`ClampAnchor::setState`) only mutates the `state` field;
  the log line itself is I/O and is not modelled.  The early-return of
  `setState` when the new state equals the old one changes no field either,
  so `setState` is modelled as the plain field update.
-/

namespace Clamp

/-! ### Anchor state machine (include/clamp.h, src/src/clamp.cpp) -/

inductive AnchorState where
  | Unlocked
  | Locked
  | Released
  | Error
deriving DecidableEq, Repr

structure AnchorStatus where
  state : AnchorState := AnchorState.Unlocked
  context : String := ""
  entropySeed : Nat := 0
deriving DecidableEq, Repr

/-- A freshly constructed `ClampAnchor`: `Unlocked`, empty context, seed 0. -/
def initialAnchor : AnchorStatus := {}

/-- Model of `ClampAnchor::setState`: logs and assigns `state_.state = newState`. -/
def setState (s : AnchorStatus) (newState : AnchorState) : AnchorStatus :=
  { s with state := newState }

/-- Model of `ClampAnchor::lock` (clamp.cpp:61-77); `seed` is the value
`tracker_.generateSeed()` returns during this call. -/
def ClampAnchor.lock (s : AnchorStatus) (ctx : String) (seed : Nat) : AnchorStatus :=
  if s.state = AnchorState.Locked then
    setState s AnchorState.Error
  else if s.state = AnchorState.Error then
    s
  else
    setState { s with context := ctx, entropySeed := seed } AnchorState.Locked

/-- Model of `ClampAnchor::release_internal` (clamp.cpp:88-100). -/
def ClampAnchor.release_internal (s : AnchorStatus) : AnchorStatus :=
  if s.state ≠ AnchorState.Locked then
    s
  else
    setState { setState s AnchorState.Released with context := "", entropySeed := 0 }
      AnchorState.Unlocked

/-- Model of `ClampAnchor::release` (clamp.cpp:79-86). -/
def ClampAnchor.release (s : AnchorStatus) : AnchorStatus :=
  if s.state ≠ AnchorState.Locked then
    setState s AnchorState.Error
  else
    ClampAnchor.release_internal s

/-- One public lifecycle call on an anchor; a `lock` call carries the seed the
generator produces during that call. -/
inductive AnchorOp where
  | lock (ctx : String) (seed : Nat)
  | release
deriving DecidableEq, Repr

def stepAnchor (s : AnchorStatus) : AnchorOp → AnchorStatus
  | AnchorOp.lock ctx seed => ClampAnchor.lock s ctx seed
  | AnchorOp.release => ClampAnchor.release s

def runAnchor (s : AnchorStatus) : List AnchorOp → AnchorStatus
  | [] => s
  | op :: rest => runAnchor (stepAnchor s op) rest

/-- The legal alternation: `lock` only from `Unlocked`, `release` only from
`Locked`. -/
def legalAlternation (s : AnchorStatus) : List AnchorOp → Bool
  | [] => true
  | op :: rest =>
    (match op with
     | AnchorOp.lock _ _ => s.state = AnchorState.Unlocked
     | AnchorOp.release => s.state = AnchorState.Locked) &&
    legalAlternation (stepAnchor s op) rest

/-- Every `lock` call in the sequence is supplied a nonzero generator seed. -/
def nonzeroSeeds : List AnchorOp → Bool
  | [] => true
  | AnchorOp.lock _ seed :: rest => decide (seed ≠ 0) && nonzeroSeeds rest
  | AnchorOp.release :: rest => nonzeroSeeds rest

/-! ### Entropy telemetry recorder (src/src/telemetry/entropy_telemetry.cpp,
clamp/EntropyTelemetry.h variant).  The mutex only serializes calls; the
sequential model below is the behaviour of each serialized call. -/

structure AnchorTelemetryRecord where
  context : String := ""
  seed : Nat := 0
  threadId : String := ""
  acquiredAt : ℚ := 0
  releasedAt : Option ℚ := none
  durationMs : ℚ := 0
  stabilityScore : ℚ := 0
  backend : String := ""
  deviceName : String := ""
deriving DecidableEq, Inhabited

structure EntropyTelemetry where
  records : List AnchorTelemetryRecord := []
  backend : String := ""
  deviceName : String := ""
deriving DecidableEq, Inhabited

/-- Model of `EntropyTelemetry::recordAcquire` (entropy_telemetry.cpp:209-228);
`threadId` and `now` are the ambient thread id and clock reading.  Returns the
updated recorder and the handle `records_.size() - 1` after the append. -/
def EntropyTelemetry.recordAcquire (st : EntropyTelemetry) (context : String)
    (seed : Nat) (threadId : String) (now : ℚ) : EntropyTelemetry × Nat :=
  let backend := if st.backend = "" then "CPU" else st.backend
  let deviceName := if st.deviceName = "" then "host" else st.deviceName
  let record : AnchorTelemetryRecord :=
    { context := context, seed := seed, threadId := threadId, acquiredAt := now,
      backend := backend, deviceName := deviceName }
  ({ st with backend := backend, deviceName := deviceName,
             records := st.records ++ [record] },
   st.records.length)

/-- Model of `EntropyTelemetry::recordRelease` (entropy_telemetry.cpp:230-253);
`now` is the clock reading taken at entry. -/
def EntropyTelemetry.recordRelease (st : EntropyTelemetry) (recordId : Nat)
    (context : String) (seed : Nat) (stabilityScore : ℚ) (now : ℚ) :
    EntropyTelemetry :=
  if recordId < st.records.length then
    let record := st.records.getD recordId default
    let updated : AnchorTelemetryRecord :=
      { record with
        releasedAt := some now,
        durationMs := now - record.acquiredAt,
        stabilityScore := stabilityScore,
        backend := st.backend,
        deviceName := st.deviceName,
        context := if record.context = "" then context else record.context,
        seed := if record.seed = 0 then seed else record.seed }
    { st with records := st.records.set recordId updated }
  else
    st

/-- A sequence of further `recordAcquire` calls (context, seed, threadId,
clock reading), applied in order. -/
def applyAcquires (st : EntropyTelemetry) :
    List (String × Nat × String × ℚ) → EntropyTelemetry
  | [] => st
  | (c, s, t, n) :: rest => applyAcquires (st.recordAcquire c s t n).1 rest

/-! ### Streaming statistics and aggregation
(src/src/telemetry/temporal_aggregator.cpp) -/

/-- Model of `RunningStats` (temporal_aggregator.cpp:405-427).  Over `ℚ` every value is
finite, so the `!std::isfinite(value)` early return of `add` never fires. -/
structure RunningStats where
  mean : ℚ := 0
  m2 : ℚ := 0
  count : Nat := 0
deriving DecidableEq, Inhabited

def RunningStats.add (s : RunningStats) (value : ℚ) : RunningStats :=
  let count := s.count + 1
  let delta := value - s.mean
  let mean := s.mean + delta / (count : ℚ)
  let delta2 := value - mean
  { mean := mean, m2 := s.m2 + delta * delta2, count := count }

def RunningStats.variance (s : RunningStats) : ℚ :=
  if s.count < 2 then 0 else s.m2 / ((s.count : ℚ) - 1)

/-- Model of `ParsedRecord` (temporal_aggregator.cpp:123-129); `timestampMs` is not
consumed by `aggregate` and is omitted. -/
structure ParsedRecord where
  stabilityScore : ℚ := 0
  durationMs : ℚ := 0
  hasStability : Bool := false
  hasDuration : Bool := false
deriving DecidableEq, Inhabited

/-- Model of `ParsedFile` (temporal_aggregator.cpp:131-135). -/
structure ParsedFile where
  records : List ParsedRecord := []
  backend : String := ""
  deviceName : String := ""
deriving DecidableEq, Inhabited

/-- One directory entry as seen by `std::filesystem::directory_iterator`:
whether it is a regular file, its extension, and the result of parsing its
content (`none` models a file that cannot be opened or fails to parse, for
which `parseTelemetryFile` returns the empty `ParsedFile{}`). -/
structure DirEntry where
  isRegularFile : Bool := true
  extension : String := ".json"
  parse : Option ParsedFile := none
deriving DecidableEq, Inhabited

/-- Model of `parseTelemetryFile` (temporal_aggregator.cpp:393-403): an unreadable or
malformed file yields the empty `ParsedFile`. -/
def parseTelemetryFile (e : DirEntry) : ParsedFile :=
  e.parse.getD {}

/-- The filter of the directory loop (temporal_aggregator.cpp:488-493):
only regular files with extension `.json` are processed. -/
def fileIncluded (e : DirEntry) : Bool :=
  e.isRegularFile && e.extension = ".json"

/-- A record contributes a stability sample iff it has one; the
`std::isfinite(record.stabilityScore)` conjunct is vacuous over `ℚ`. -/
def validStability (r : ParsedRecord) : Bool :=
  r.hasStability

/-- A record contributes a duration iff it has one and it is non-negative
(finiteness vacuous over `ℚ`). -/
def validDuration (r : ParsedRecord) : Bool :=
  r.hasDuration && decide (0 ≤ r.durationMs)

/-- The mutable state of the `aggregate` directory loop
(temporal_aggregator.cpp:479-485). -/
structure AggState where
  stats : RunningStats := {}
  durations : List ℚ := []
  detectedBackend : String := ""
  detectedDevice : String := ""
  mixedBackend : Bool := false
  mixedDevice : Bool := false
deriving DecidableEq, Inhabited

/-- The record loop body (temporal_aggregator.cpp:517-525). -/
def recStep (st : AggState) (r : ParsedRecord) : AggState :=
  if !validStability r then
    st
  else
    let st1 := { st with stats := st.stats.add r.stabilityScore }
    if validDuration r then
      { st1 with durations := st1.durations ++ [r.durationMs] }
    else
      st1

/-- Backend / device detection (temporal_aggregator.cpp:502-515). -/
def detectFile (st : AggState) (f : ParsedFile) : AggState :=
  let st1 :=
    if f.backend ≠ "" then
      if st.detectedBackend = "" then { st with detectedBackend := f.backend }
      else if st.detectedBackend ≠ f.backend then { st with mixedBackend := true }
      else st
    else st
  if f.deviceName ≠ "" then
    if st1.detectedDevice = "" then { st1 with detectedDevice := f.deviceName }
    else if st1.detectedDevice ≠ f.deviceName then { st1 with mixedDevice := true }
    else st1
  else st1

/-- The per-file body of the `aggregate` directory loop
(temporal_aggregator.cpp:487-526). -/
def aggFile (st : AggState) (e : DirEntry) : AggState :=
  if !fileIncluded e then
    st
  else
    let f := parseTelemetryFile e
    (f.records).foldl recStep (detectFile st f)

/-- Inside `computePercentile`, quickselect models the partial-selection
`std::nth_element` call (temporal_aggregator.cpp:456-469): the value the
algorithm leaves at position `k` is the rank-`k` element of the sorted data. -/
def nthElement (l : List ℚ) (k : Nat) : ℚ :=
  match l with
  | [] => 0
  | p :: rest =>
    let less := rest.filter (fun x => decide (x < p))
    let notLess := rest.filter (fun x => !decide (x < p))
    if k < less.length then nthElement less k
    else if k = less.length then p
    else nthElement notLess (k - less.length - 1)
termination_by l.length
decreasing_by
  · exact Nat.lt_succ_of_le (List.length_filter_le _ _)
  · exact Nat.lt_succ_of_le (List.length_filter_le _ _)

/-- Model of `computePercentile` (temporal_aggregator.cpp:456-469). -/
def computePercentile (values : List ℚ) (percentile : ℚ) : ℚ :=
  if values.length = 0 then 0
  else
    let clamped := min (max percentile 0) 1
    if values.length = 1 then values.headI
    else
      let scaledIndex := clamped * ((values.length : ℚ) - 1)
      let index := (⌊scaledIndex⌋).toNat
      nthElement values index

/-- Model of `TemporalAggregator::Summary` (clamp/TemporalAggregator.h), with the
provenance/trust string fields used by `summaryToJson`. -/
structure Summary where
  meanStability : ℚ := 0
  variance : ℚ := 0
  driftPercentile : ℚ := 0
  sessionCount : Nat := 0
  stabilityVariance : ℚ := 0
  driftIndex : ℚ := 0
  backend : String := ""
  deviceName : String := ""
  trustStatus : String := ""
  provenanceIssuer : String := ""
  provenanceTimestamp : String := ""
  digestAlgorithm : String := ""
  policyDecision : String := ""
deriving DecidableEq, Inhabited

/-- Model of `TemporalAggregator::aggregate` (temporal_aggregator.cpp:473-552) over a
directory listing.  A nonexistent directory behaves like an empty listing
(both return the default `Summary`). -/
def TemporalAggregator.aggregate (dir : List DirEntry) : Summary :=
  let st := dir.foldl aggFile {}
  let backend :=
    if st.mixedBackend then "mixed"
    else if st.detectedBackend = "" then "unknown" else st.detectedBackend
  let deviceName :=
    if st.mixedDevice then "mixed"
    else if st.detectedDevice = "" then "unspecified" else st.detectedDevice
  { sessionCount := st.stats.count,
    meanStability := st.stats.mean,
    variance := st.stats.variance,
    stabilityVariance := st.stats.variance,
    driftPercentile := computePercentile st.durations (95 / 100),
    driftIndex := computePercentile st.durations (95 / 100),
    backend := backend,
    deviceName := deviceName }

/-- The JSON object `summaryToJson` emits (temporal_aggregator.cpp:429-454),
modelled as the ordered key/value list of the object; number formatting and
string escaping are orthogonal to the claims and keep the value itself. -/
inductive JsonValue where
  | str (s : String)
  | num (q : ℚ)
  | nat (n : Nat)
deriving DecidableEq

def summaryToJson (summary : Summary) (sourceDirectory : String) :
    List (String × JsonValue) :=
  [("sourceDirectory", JsonValue.str sourceDirectory),
   ("source_directory", JsonValue.str sourceDirectory),
   ("backend", JsonValue.str summary.backend),
   ("deviceName", JsonValue.str summary.deviceName),
   ("device_name", JsonValue.str summary.deviceName),
   ("sessionCount", JsonValue.nat summary.sessionCount),
   ("meanStability", JsonValue.num summary.meanStability),
   ("variance", JsonValue.num summary.variance),
   ("driftPercentile", JsonValue.num summary.driftPercentile),
   ("session_count", JsonValue.nat summary.sessionCount),
   ("mean_stability", JsonValue.num summary.meanStability),
   ("stability_variance", JsonValue.num summary.stabilityVariance),
   ("drift_index", JsonValue.num summary.driftIndex),
   ("trustStatus", JsonValue.str summary.trustStatus),
   ("provenanceIssuer", JsonValue.str summary.provenanceIssuer),
   ("provenanceTimestamp", JsonValue.str summary.provenanceTimestamp),
   ("digestAlgorithm", JsonValue.str summary.digestAlgorithm),
   ("policyDecision", JsonValue.str summary.policyDecision)]

/-- The document `TemporalAggregator::writeSummary`
(temporal_aggregator.cpp:697-711) writes to the output file; directory
creation and I/O success are not modelled. -/
def TemporalAggregator.writeSummary (summary : Summary)
    (sourceDirectory : String) : List (String × JsonValue) :=
  summaryToJson summary sourceDirectory

/-! ### Temporal scoring (src/src/clamp.cpp, TemporalScoring part) -/

/-- Model of `clamp01` (clamp.cpp:196-204). -/
def clamp01 (value : ℚ) : ℚ :=
  if value < 0 then 0 else if value > 1 then 1 else value

/-- Model of `computeNormalizedVariance` (clamp.cpp:155-170). -/
def computeNormalizedVariance (values : List ℚ) : ℚ :=
  if values.length < 2 then 0
  else
    let mean := values.sum / (values.length : ℚ)
    let sumSq := (values.map (fun v => (v - mean) * (v - mean))).sum
    let variance := sumSq / ((values.length : ℚ) - 1)
    let scale := |mean| + 1
    variance / (scale * scale)

/-- Model of `maxDriftMs` (clamp.cpp:172-194): span of the non-zero `acquiredAt`
timestamps (already in milliseconds in the model). -/
def maxDriftMs (records : List AnchorTelemetryRecord) : ℚ :=
  let ts := (records.filter (fun r => !decide (r.acquiredAt = 0))).map
    (fun r => r.acquiredAt)
  match ts with
  | [] => 0
  | t :: rest => rest.foldl max t - rest.foldl min t

structure TemporalScoringResult where
  stabilityScore : ℚ := 0
  entropyVariance : ℚ := 0
  durationVariance : ℚ := 0
  driftMs : ℚ := 0
  sampleCount : Nat := 0
deriving DecidableEq, Inhabited

/-- Model of `TemporalScoring::evaluate` (clamp.cpp:208-234).  Seeds are converted to
`double` before the variance computation; the model keeps the exact value. -/
def TemporalScoring.evaluate (records : List AnchorTelemetryRecord) :
    TemporalScoringResult :=
  if records.isEmpty then
    { sampleCount := records.length, stabilityScore := 1 }
  else
    let seedValues := records.map (fun r => (r.seed : ℚ))
    let durations := records.map (fun r => r.durationMs)
    let entropyVariance := clamp01 (computeNormalizedVariance seedValues)
    let durationVariance := clamp01 (computeNormalizedVariance durations)
    let driftMs := |maxDriftMs records|
    let driftComponent := clamp01 (driftMs / 1000)
    let penalty := (entropyVariance + durationVariance + driftComponent) / 3
    { sampleCount := records.length,
      entropyVariance := entropyVariance,
      durationVariance := durationVariance,
      driftMs := driftMs,
      stabilityScore := clamp01 (1 - penalty) }

/-! ### Spec-side definitions, written from the wording of the specification,
to be compared against the definitions above that embed the source. -/

/-- Naive two-pass mean: sum divided by n (spec §4.5 / claim C4). -/
def naiveMean (vs : List ℚ) : ℚ :=
  vs.sum / (vs.length : ℚ)

/-- Naive Bessel-corrected sample variance: sum of squared deviations from the
mean divided by n-1, zero when fewer than two values (spec §4.4/§4.5). -/
def naiveSampleVariance (vs : List ℚ) : ℚ :=
  if vs.length < 2 then 0
  else (vs.map (fun v => (v - naiveMean vs) ^ 2)).sum / ((vs.length : ℚ) - 1)

/-- Spec wording of the percentile (claim C5): the element of rank
`floor(p * (n-1))` of the sorted list, after clamping `p` to `[0,1]`;
empty list yields 0. -/
def specSortedRank (vs : List ℚ) (p : ℚ) : ℚ :=
  if vs.length = 0 then 0
  else
    let clamped := min (max p 0) 1
    (vs.insertionSort (fun a b => a ≤ b)).getD
      ((⌊clamped * ((vs.length : ℚ) - 1)⌋).toNat) 0

/-- Spec wording of a normalized variance (claim C6): the Bessel-corrected
sample variance (0 if fewer than 2 values) divided by `(|mean|+1)^2`, clamped
to `[0,1]`. -/
def specNormalizedVariance (vs : List ℚ) : ℚ :=
  clamp01 (naiveSampleVariance vs / (|naiveMean vs| + 1) ^ 2)

/-- Spec wording of the stability score (claim C6): one minus the average of
the normalized entropy variance, the normalized duration variance and
`min(driftMs/1000, 1)`, clamped to `[0,1]`. -/
def specStabilityScore (records : List AnchorTelemetryRecord) : ℚ :=
  let seedValues := records.map (fun r => (r.seed : ℚ))
  let durations := records.map (fun r => r.durationMs)
  let driftMs := |maxDriftMs records|
  clamp01 (1 -
    (specNormalizedVariance seedValues + specNormalizedVariance durations +
      min (driftMs / 1000) 1) / 3)

/-- The number of records with a usable stability value across the given
files, counting every file of the directory (claim C3 wording). -/
def countAllValidRecords (dir : List DirEntry) : Nat :=
  (dir.map (fun e => ((parseTelemetryFile e).records.filter validStability).length)).sum

/-- The number of records with a usable stability value across the regular
`.json` files of the directory (claim C3, amended to the code's file filter). -/
def countIncludedValidRecords (dir : List DirEntry) : Nat :=
  ((dir.filter fileIncluded).map
    (fun e => ((parseTelemetryFile e).records.filter validStability).length)).sum

/-- The duration values `aggregate` collects, in directory order: for every
regular `.json` file, the non-negative durations of its records that carry a
stability value. -/
def collectedDurations (dir : List DirEntry) : List ℚ :=
  ((dir.filter fileIncluded).map
    (fun e => (((parseTelemetryFile e).records.filter
        (fun r => validStability r && validDuration r)).map
      (fun r => r.durationMs)))).flatten

/-- The stability values `aggregate` folds into the running statistics, in
directory order. -/
def collectedStabilities (dir : List DirEntry) : List ℚ :=
  ((dir.filter fileIncluded).map
    (fun e => (((parseTelemetryFile e).records.filter validStability).map
      (fun r => r.stabilityScore)))).flatten

/-- The state invariant maintained by the legal alternation when every
generated seed is nonzero. -/
def anchorInv (s : AnchorStatus) : Prop :=
  (s.state = AnchorState.Unlocked ∨ s.state = AnchorState.Locked) ∧
  (s.state = AnchorState.Unlocked → s.entropySeed = 0 ∧ s.context = "") ∧
  (s.state = AnchorState.Locked → s.entropySeed ≠ 0)

/-! ### Theorems -/

theorem anchorInv_run (ops : List AnchorOp) : ∀ s : AnchorStatus,
    anchorInv s → legalAlternation s ops = true → nonzeroSeeds ops = true →
    anchorInv (runAnchor s ops) := by
  induction ops with
  | nil => exact fun s hs _ _ => hs
  | cons op rest ih =>
    intro s hs hleg hseed
    cases op with
    | lock ctx seed =>
      simp only [legalAlternation, Bool.and_eq_true, decide_eq_true_eq] at hleg
      simp only [nonzeroSeeds, Bool.and_eq_true, decide_eq_true_eq] at hseed
      refine ih _ ?_ hleg.2 hseed.2
      simp only [stepAnchor, ClampAnchor.lock, hleg.1, setState]
      constructor
      · exact Or.inr rfl
      constructor
      · intro h; simp at h
      · intro _; exact hseed.1
    | release =>
      simp only [legalAlternation, Bool.and_eq_true, decide_eq_true_eq] at hleg
      simp only [nonzeroSeeds] at hseed
      refine ih _ ?_ hleg.2 hseed
      simp only [stepAnchor, ClampAnchor.release, ClampAnchor.release_internal,
        hleg.1, setState]
      exact ⟨Or.inl rfl, fun _ => ⟨rfl, rfl⟩, fun h => by simp at h⟩

theorem errorState_absorbs (s : AnchorStatus) (h : s.state = AnchorState.Error) :
    ∀ ops : List AnchorOp, runAnchor s ops = s := by
  intro ops
  induction ops with
  | nil => rfl
  | cons op rest ih =>
    have hstep : stepAnchor s op = s := by
      cases op with
      | lock ctx seed =>
        simp [stepAnchor, ClampAnchor.lock, h]
      | release =>
        cases s with
        | mk st c e =>
          simp only at h
          simp [stepAnchor, ClampAnchor.release, setState, h]
    simpa [runAnchor, hstep] using ih

/-- C1, amended: over every legal alternation of lock/release calls in which
each lock obtains a nonzero generator seed, the anchor is Locked iff its
entropy seed is nonzero, and Unlocked iff the seed is zero and the context is
empty.  (The claim as stated fails when the generator returns 0, see the
counterexample.) -/
theorem C1_lifecycle_invariant (ops : List AnchorOp)
    (hleg : legalAlternation initialAnchor ops = true)
    (hseed : nonzeroSeeds ops = true) :
    ((runAnchor initialAnchor ops).state = AnchorState.Locked ↔
      (runAnchor initialAnchor ops).entropySeed ≠ 0) ∧
    ((runAnchor initialAnchor ops).state = AnchorState.Unlocked ↔
      ((runAnchor initialAnchor ops).entropySeed = 0 ∧
        (runAnchor initialAnchor ops).context = "")) := by
  have hinit : anchorInv initialAnchor :=
    ⟨Or.inl rfl, fun _ => ⟨rfl, rfl⟩, fun h => by simp [initialAnchor] at h⟩
  obtain ⟨hor, hU, hL⟩ := anchorInv_run ops initialAnchor hinit hleg hseed
  constructor
  · constructor
    · exact hL
    · intro hne
      rcases hor with h | h
      · exact absurd (hU h).1 hne
      · exact h
  · constructor
    · exact hU
    · rintro ⟨h0, _⟩
      rcases hor with h | h
      · exact h
      · exact absurd h0 (hL h)

theorem C1_lifecycle_invariant_witness :
    legalAlternation initialAnchor
      [AnchorOp.lock "ctx-a" 7, AnchorOp.release, AnchorOp.lock "ctx-b" 3] = true ∧
    nonzeroSeeds
      [AnchorOp.lock "ctx-a" 7, AnchorOp.release, AnchorOp.lock "ctx-b" 3] = true ∧
    (((runAnchor initialAnchor
        [AnchorOp.lock "ctx-a" 7, AnchorOp.release, AnchorOp.lock "ctx-b" 3]).state =
          AnchorState.Locked ↔
      (runAnchor initialAnchor
        [AnchorOp.lock "ctx-a" 7, AnchorOp.release, AnchorOp.lock "ctx-b" 3]).entropySeed ≠ 0) ∧
     ((runAnchor initialAnchor
        [AnchorOp.lock "ctx-a" 7, AnchorOp.release, AnchorOp.lock "ctx-b" 3]).state =
          AnchorState.Unlocked ↔
      ((runAnchor initialAnchor
        [AnchorOp.lock "ctx-a" 7, AnchorOp.release, AnchorOp.lock "ctx-b" 3]).entropySeed = 0 ∧
       (runAnchor initialAnchor
        [AnchorOp.lock "ctx-a" 7, AnchorOp.release, AnchorOp.lock "ctx-b" 3]).context = ""))) :=
  ⟨by decide, by decide, C1_lifecycle_invariant _ (by decide) (by decide)⟩

/-- C1 counterexample: the single legal call `lock("ctx")` in which the
generator returns seed 0 leaves the anchor Locked with `entropySeed() == 0`,
so `Locked ↔ seed ≠ 0` fails on a legal alternation. -/
theorem C1_counterexample :
    legalAlternation initialAnchor [AnchorOp.lock "ctx" 0] = true ∧
    ¬ (((runAnchor initialAnchor [AnchorOp.lock "ctx" 0]).state = AnchorState.Locked) ↔
        (runAnchor initialAnchor [AnchorOp.lock "ctx" 0]).entropySeed ≠ 0) := by
  decide

/-- C2: a second `lock` on a Locked anchor moves it to `Error`, and from then
on every `lock`/`release` call leaves the whole status unchanged, so the
anchor stays in `Error` permanently and is never Locked again. -/
theorem C2_double_lock (s : AnchorStatus) (h : s.state = AnchorState.Locked)
    (ctx : String) (seed : Nat) :
    (ClampAnchor.lock s ctx seed).state = AnchorState.Error ∧
    ∀ ops : List AnchorOp,
      runAnchor (ClampAnchor.lock s ctx seed) ops = ClampAnchor.lock s ctx seed ∧
      (runAnchor (ClampAnchor.lock s ctx seed) ops).state ≠ AnchorState.Locked := by
  have hE : (ClampAnchor.lock s ctx seed).state = AnchorState.Error := by
    simp [ClampAnchor.lock, h, setState]
  refine ⟨hE, fun ops => ?_⟩
  have habs := errorState_absorbs _ hE ops
  refine ⟨habs, ?_⟩
  rw [habs, hE]
  simp

theorem C2_double_lock_witness :
    (ClampAnchor.lock
      { state := AnchorState.Locked, context := "c", entropySeed := 5 } "d" 9).state =
        AnchorState.Error ∧
    (runAnchor (ClampAnchor.lock
      { state := AnchorState.Locked, context := "c", entropySeed := 5 } "d" 9)
      [AnchorOp.release, AnchorOp.lock "e" 3]).state ≠ AnchorState.Locked :=
  ⟨(C2_double_lock _ rfl "d" 9).1,
   ((C2_double_lock _ rfl "d" 9).2 [AnchorOp.release, AnchorOp.lock "e" 3]).2⟩

/-- C10: a double lock from a Locked state reached by a successful lock moves
the anchor to `Error` but leaves `context` and `entropySeed` at the values of
the earlier successful lock; `status()` in that Error state still reports the
nonzero seed and non-empty context. -/
theorem C10_double_lock_frame (s : AnchorStatus) (ctx ctx2 : String)
    (seed seed2 : Nat) (hs : s.state = AnchorState.Unlocked)
    (hseed : seed ≠ 0) (hctx : ctx ≠ "") :
    (ClampAnchor.lock (ClampAnchor.lock s ctx seed) ctx2 seed2).state =
      AnchorState.Error ∧
    (ClampAnchor.lock (ClampAnchor.lock s ctx seed) ctx2 seed2).context = ctx ∧
    (ClampAnchor.lock (ClampAnchor.lock s ctx seed) ctx2 seed2).entropySeed = seed ∧
    (ClampAnchor.lock (ClampAnchor.lock s ctx seed) ctx2 seed2).entropySeed ≠ 0 ∧
    (ClampAnchor.lock (ClampAnchor.lock s ctx seed) ctx2 seed2).context ≠ "" := by
  have h1 : ClampAnchor.lock s ctx seed =
      { state := AnchorState.Locked, context := ctx, entropySeed := seed } := by
    simp [ClampAnchor.lock, hs, setState]
  rw [h1]
  exact ⟨by simp [ClampAnchor.lock, setState], by simp [ClampAnchor.lock, setState],
    by simp [ClampAnchor.lock, setState], by simpa [ClampAnchor.lock, setState] using hseed,
    by simpa [ClampAnchor.lock, setState] using hctx⟩

theorem C10_double_lock_frame_witness :
    (ClampAnchor.lock (ClampAnchor.lock initialAnchor "gpu-pass" 42) "other" 8).state =
      AnchorState.Error ∧
    (ClampAnchor.lock (ClampAnchor.lock initialAnchor "gpu-pass" 42) "other" 8).context =
      "gpu-pass" ∧
    (ClampAnchor.lock (ClampAnchor.lock initialAnchor "gpu-pass" 42) "other" 8).entropySeed =
      42 ∧
    (ClampAnchor.lock (ClampAnchor.lock initialAnchor "gpu-pass" 42) "other" 8).entropySeed ≠
      0 ∧
    (ClampAnchor.lock (ClampAnchor.lock initialAnchor "gpu-pass" 42) "other" 8).context ≠
      "" :=
  C10_double_lock_frame initialAnchor "gpu-pass" "other" 42 8 rfl
    (by decide) (by decide)

/-- C8: `recordRelease` with an out-of-range handle is a silent no-op: the
whole recorder state, every stored record included, is returned unchanged. -/
theorem C8_stale_handle_noop (st : EntropyTelemetry) (recordId : Nat)
    (context : String) (seed : Nat) (score now : ℚ)
    (h : st.records.length ≤ recordId) :
    st.recordRelease recordId context seed score now = st := by
  simp only [EntropyTelemetry.recordRelease]
  rw [if_neg (Nat.not_lt.mpr h)]

theorem C8_stale_handle_noop_witness :
    ({ records := [{ context := "a", seed := 4 }] } : EntropyTelemetry).records.length ≤ 3 ∧
    EntropyTelemetry.recordRelease
      { records := [{ context := "a", seed := 4 }] } 3 "b" 1 (1 / 2) 10 =
      { records := [{ context := "a", seed := 4 }] } :=
  ⟨by decide, C8_stale_handle_noop _ 3 "b" 1 (1 / 2) 10 (by decide)⟩

theorem recordAcquire_handle (st : EntropyTelemetry) (c : String) (s : Nat)
    (t : String) (n : ℚ) :
    (st.recordAcquire c s t n).2 = st.records.length := rfl

theorem recordAcquire_records (st : EntropyTelemetry) (c : String) (s : Nat)
    (t : String) (n : ℚ) :
    (st.recordAcquire c s t n).1.records = st.records ++
      [{ context := c, seed := s, threadId := t, acquiredAt := n,
         backend := if st.backend = "" then "CPU" else st.backend,
         deviceName := if st.deviceName = "" then "host" else st.deviceName }] := rfl

theorem applyAcquires_length (extra : List (String × Nat × String × ℚ)) :
    ∀ st : EntropyTelemetry,
      st.records.length ≤ (applyAcquires st extra).records.length := by
  induction extra with
  | nil => exact fun st => le_refl _
  | cons hd rest ih =>
    intro st
    obtain ⟨c, s, t, n⟩ := hd
    refine le_trans ?_ (ih (st.recordAcquire c s t n).1)
    rw [recordAcquire_records]
    simp

theorem applyAcquires_getElem (extra : List (String × Nat × String × ℚ)) :
    ∀ (st : EntropyTelemetry) (i : Nat), i < st.records.length →
      (applyAcquires st extra).records[i]? = st.records[i]? := by
  induction extra with
  | nil => intro st i _; rfl
  | cons hd rest ih =>
    intro st i hi
    obtain ⟨c, s, t, n⟩ := hd
    have hi1 : i < (st.recordAcquire c s t n).1.records.length := by
      rw [recordAcquire_records]
      simp only [List.length_append, List.length_cons, List.length_nil]
      omega
    show (applyAcquires (st.recordAcquire c s t n).1 rest).records[i]? = _
    rw [ih _ i hi1, recordAcquire_records, List.getElem?_append_left hi]

theorem recordRelease_getD (st : EntropyTelemetry) (i : Nat) (c : String)
    (s : Nat) (score now : ℚ) (h : i < st.records.length) :
    (st.recordRelease i c s score now).records.getD i default =
      { st.records.getD i default with
        releasedAt := some now,
        durationMs := now - (st.records.getD i default).acquiredAt,
        stabilityScore := score,
        backend := st.backend,
        deviceName := st.deviceName,
        context := if (st.records.getD i default).context = "" then c
                   else (st.records.getD i default).context,
        seed := if (st.records.getD i default).seed = 0 then s
                else (st.records.getD i default).seed } := by
  simp only [EntropyTelemetry.recordRelease]
  rw [if_pos h]
  simp [List.getD_eq_getElem?_getD, List.getElem?_set_self h]

/-- C9: a `recordAcquire` (at clock reading `tAcq`), followed by any number of
further acquisitions and then `recordRelease` on the returned handle at a
later clock reading `tRel`, stores `durationMs = tRel - tAcq`, which is
non-negative. -/
theorem C9_release_duration (st : EntropyTelemetry) (context : String)
    (seed : Nat) (threadId : String) (tAcq : ℚ)
    (extra : List (String × Nat × String × ℚ))
    (ctx2 : String) (seed2 : Nat) (score tRel : ℚ) (h : tAcq ≤ tRel) :
    (((applyAcquires (st.recordAcquire context seed threadId tAcq).1 extra).recordRelease
        (st.recordAcquire context seed threadId tAcq).2 ctx2 seed2 score tRel).records.getD
      (st.recordAcquire context seed threadId tAcq).2 default).durationMs = tRel - tAcq ∧
    0 ≤ (((applyAcquires (st.recordAcquire context seed threadId tAcq).1 extra).recordRelease
        (st.recordAcquire context seed threadId tAcq).2 ctx2 seed2 score tRel).records.getD
      (st.recordAcquire context seed threadId tAcq).2 default).durationMs := by
  have hlen1 : st.records.length <
      (st.recordAcquire context seed threadId tAcq).1.records.length := by
    rw [recordAcquire_records]
    simp
  have hlen2 : st.records.length <
      (applyAcquires (st.recordAcquire context seed threadId tAcq).1 extra).records.length :=
    lt_of_lt_of_le hlen1 (applyAcquires_length extra _)
  have hget : (applyAcquires (st.recordAcquire context seed threadId tAcq).1
      extra).records[st.records.length]? = some
      { context := context, seed := seed, threadId := threadId, acquiredAt := tAcq,
        backend := if st.backend = "" then "CPU" else st.backend,
        deviceName := if st.deviceName = "" then "host" else st.deviceName } := by
    rw [applyAcquires_getElem extra _ _ hlen1, recordAcquire_records,
      List.getElem?_append_right (le_refl _)]
    simp
  have hgetD : (applyAcquires (st.recordAcquire context seed threadId tAcq).1
      extra).records.getD st.records.length default =
      { context := context, seed := seed, threadId := threadId, acquiredAt := tAcq,
        backend := if st.backend = "" then "CPU" else st.backend,
        deviceName := if st.deviceName = "" then "host" else st.deviceName } := by
    rw [List.getD_eq_getElem?_getD, hget]
    rfl
  rw [recordAcquire_handle, recordRelease_getD _ _ _ _ _ _ hlen2, hgetD]
  exact ⟨rfl, by simpa using h⟩

theorem C9_release_duration_witness :
    (((applyAcquires (EntropyTelemetry.recordAcquire {} "a" 1 "t" 0).1
        [("b", 2, "u", 1)]).recordRelease
        (EntropyTelemetry.recordAcquire {} "a" 1 "t" 0).2 "c" 3 1 5).records.getD
      (EntropyTelemetry.recordAcquire {} "a" 1 "t" 0).2 default).durationMs = 5 - 0 ∧
    0 ≤ (((applyAcquires (EntropyTelemetry.recordAcquire {} "a" 1 "t" 0).1
        [("b", 2, "u", 1)]).recordRelease
        (EntropyTelemetry.recordAcquire {} "a" 1 "t" 0).2 "c" 3 1 5).records.getD
      (EntropyTelemetry.recordAcquire {} "a" 1 "t" 0).2 default).durationMs :=
  C9_release_duration {} "a" 1 "t" 0 [("b", 2, "u", 1)] "c" 3 1 5 (by norm_num)

theorem sum_sq_shift (vs : List ℚ) (a b : ℚ) :
    (vs.map (fun x => (x - b) ^ 2)).sum =
      (vs.map (fun x => (x - a) ^ 2)).sum +
        2 * (a - b) * (vs.sum - (vs.length : ℚ) * a) +
        (vs.length : ℚ) * (a - b) ^ 2 := by
  induction vs with
  | nil => simp
  | cons v rest ih =>
    simp only [List.map_cons, List.sum_cons, List.length_cons, Nat.cast_add,
      Nat.cast_one]
    rw [ih]
    ring

theorem welford_add_inv (xs : List ℚ) (s : RunningStats) (v : ℚ)
    (hc : s.count = xs.length)
    (hm : s.mean * (xs.length : ℚ) = xs.sum)
    (h2 : s.m2 = (xs.map (fun x => (x - s.mean) ^ 2)).sum) :
    (s.add v).count = (xs ++ [v]).length ∧
    (s.add v).mean * ((xs ++ [v]).length : ℚ) = (xs ++ [v]).sum ∧
    (s.add v).m2 = ((xs ++ [v]).map (fun x => (x - (s.add v).mean) ^ 2)).sum := by
  have hn1 : ((xs.length : ℚ) + 1) ≠ 0 := by positivity
  have hcast : ((s.count + 1 : ℕ) : ℚ) = (xs.length : ℚ) + 1 := by
    rw [hc]
    push_cast
    ring
  have hmean : (s.add v).mean = s.mean + (v - s.mean) / ((xs.length : ℚ) + 1) := by
    simp only [RunningStats.add, hcast]
  refine ⟨?_, ?_, ?_⟩
  · simp [RunningStats.add, hc]
  · rw [hmean]
    simp only [List.length_append, List.sum_append, List.length_cons,
      List.length_nil, List.sum_cons, List.sum_nil]
    push_cast
    field_simp
    linear_combination hm
  · have hm2 : (s.add v).m2 = s.m2 + (v - s.mean) * (v - (s.add v).mean) := by
      simp only [RunningStats.add]
    rw [hm2, hmean]
    simp only [List.map_append, List.sum_append, List.map_cons, List.map_nil,
      List.sum_cons, List.sum_nil]
    rw [sum_sq_shift xs s.mean (s.mean + (v - s.mean) / ((xs.length : ℚ) + 1)), h2]
    have hzero : xs.sum - (xs.length : ℚ) * s.mean = 0 := by
      rw [← hm]
      ring
    rw [hzero]
    field_simp
    ring

theorem welford_foldl (vs : List ℚ) : ∀ (xs : List ℚ) (s : RunningStats),
    s.count = xs.length →
    s.mean * (xs.length : ℚ) = xs.sum →
    s.m2 = (xs.map (fun x => (x - s.mean) ^ 2)).sum →
    (vs.foldl RunningStats.add s).count = (xs ++ vs).length ∧
    (vs.foldl RunningStats.add s).mean * ((xs ++ vs).length : ℚ) = (xs ++ vs).sum ∧
    (vs.foldl RunningStats.add s).m2 =
      ((xs ++ vs).map (fun x => (x - (vs.foldl RunningStats.add s).mean) ^ 2)).sum := by
  induction vs with
  | nil =>
    intro xs s h1 h2 h3
    simpa using ⟨h1, h2, h3⟩
  | cons v rest ih =>
    intro xs s h1 h2 h3
    obtain ⟨k1, k2, k3⟩ := welford_add_inv xs s v h1 h2 h3
    have hres := ih (xs ++ [v]) (s.add v) k1 k2 k3
    simpa [List.append_assoc] using hres

/-- C4: over exact arithmetic, the streaming Welford statistics of
`RunningStats` agree with the naive two-pass mean and Bessel-corrected sample
variance on every finite sequence of values. -/
theorem C4_welford_equivalence (vs : List ℚ) :
    (vs.foldl RunningStats.add {}).count = vs.length ∧
    (vs.foldl RunningStats.add {}).mean = naiveMean vs ∧
    (vs.foldl RunningStats.add {}).variance = naiveSampleVariance vs := by
  obtain ⟨h1, h2, h3⟩ := welford_foldl vs [] {} rfl (by simp) (by simp)
  simp only [List.nil_append] at h1 h2 h3
  have hmean : (vs.foldl RunningStats.add {}).mean = naiveMean vs := by
    rcases Nat.eq_zero_or_pos vs.length with h0 | hpos
    · obtain rfl : vs = [] := List.length_eq_zero.mp h0
      simp [naiveMean]
    · have hlen : vs.length ≠ 0 := Nat.pos_iff_ne_zero.mp hpos
      have hne : ((vs.length : ℚ)) ≠ 0 := by exact_mod_cast hlen
      rw [naiveMean, eq_div_iff hne, h2]
  refine ⟨h1, hmean, ?_⟩
  rw [RunningStats.variance, naiveSampleVariance, h1]
  by_cases hlt : vs.length < 2
  · simp [hlt]
  · rw [if_neg hlt, if_neg hlt, h3, hmean]

theorem foldl_add_count (vs : List ℚ) : ∀ s : RunningStats,
    (vs.foldl RunningStats.add s).count = s.count + vs.length := by
  induction vs with
  | nil => intro s; simp
  | cons v rest ih =>
    intro s
    rw [List.foldl_cons, ih]
    simp only [RunningStats.add, List.length_cons]
    omega

theorem detectFile_frame (st : AggState) (f : ParsedFile) :
    (detectFile st f).stats = st.stats ∧ (detectFile st f).durations = st.durations := by
  simp only [detectFile]
  split_ifs <;> simp

theorem recStep_foldl (rs : List ParsedRecord) : ∀ st : AggState,
    (rs.foldl recStep st).stats =
      ((rs.filter validStability).map (fun r => r.stabilityScore)).foldl
        RunningStats.add st.stats ∧
    (rs.foldl recStep st).durations =
      st.durations ++ (rs.filter (fun r => validStability r && validDuration r)).map
        (fun r => r.durationMs) := by
  induction rs with
  | nil => intro st; simp
  | cons r rest ih =>
    intro st
    rw [List.foldl_cons]
    by_cases hv : validStability r
    · by_cases hd : validDuration r
      · have hstep : recStep st r =
            { st with stats := st.stats.add r.stabilityScore,
                      durations := st.durations ++ [r.durationMs] } := by
          simp [recStep, hv, hd]
        rw [hstep]
        obtain ⟨ih1, ih2⟩ := ih _
        refine ⟨?_, ?_⟩
        · rw [ih1]
          simp [List.filter_cons, hv]
        · rw [ih2]
          simp [List.filter_cons, hv, hd]
      · have hstep : recStep st r =
            { st with stats := st.stats.add r.stabilityScore } := by
          simp [recStep, hv, hd]
        rw [hstep]
        obtain ⟨ih1, ih2⟩ := ih _
        refine ⟨?_, ?_⟩
        · rw [ih1]
          simp [List.filter_cons, hv]
        · rw [ih2]
          simp [List.filter_cons, hv, hd]
    · have hstep : recStep st r = st := by
        simp [recStep, hv]
      rw [hstep]
      obtain ⟨ih1, ih2⟩ := ih st
      refine ⟨?_, ?_⟩
      · rw [ih1]
        simp [List.filter_cons, hv]
      · rw [ih2]
        simp [List.filter_cons, hv]

theorem aggFile_foldl (dir : List DirEntry) : ∀ st : AggState,
    (dir.foldl aggFile st).stats =
      (collectedStabilities dir).foldl RunningStats.add st.stats ∧
    (dir.foldl aggFile st).durations = st.durations ++ collectedDurations dir := by
  induction dir with
  | nil => intro st; simp [collectedStabilities, collectedDurations]
  | cons e rest ih =>
    intro st
    rw [List.foldl_cons]
    by_cases he : fileIncluded e
    · have hstep : aggFile st e =
          (parseTelemetryFile e).records.foldl recStep (detectFile st (parseTelemetryFile e)) := by
        simp [aggFile, he]
      rw [hstep]
      obtain ⟨d1, d2⟩ := detectFile_frame st (parseTelemetryFile e)
      obtain ⟨r1, r2⟩ := recStep_foldl (parseTelemetryFile e).records
        (detectFile st (parseTelemetryFile e))
      obtain ⟨ih1, ih2⟩ := ih ((parseTelemetryFile e).records.foldl recStep
        (detectFile st (parseTelemetryFile e)))
      refine ⟨?_, ?_⟩
      · rw [ih1, r1, d1]
        simp [collectedStabilities, List.filter_cons, he, List.foldl_append]
      · rw [ih2, r2, d2]
        simp [collectedDurations, List.filter_cons, he, List.append_assoc]
    · have hstep : aggFile st e = st := by
        simp [aggFile, he]
      rw [hstep]
      obtain ⟨ih1, ih2⟩ := ih st
      refine ⟨ih1.trans ?_, ih2.trans ?_⟩
      · simp [collectedStabilities, List.filter_cons, he]
      · simp [collectedDurations, List.filter_cons, he]

/-- C3, amended: `aggregate` scans the regular `.json` files of the telemetry
directory non-recursively; a file that fails to parse or whose records lack a
usable stability value contributes nothing, without failing the run (the model
is total), and `sessionCount` equals exactly the number of records with a
valid stability value across the regular `.json` files of the directory.
(As stated, over all files of the directory, the claim fails: the code skips
files whose extension is not `.json`, see the counterexample.) -/
theorem C3_session_count (dir : List DirEntry) :
    (TemporalAggregator.aggregate dir).sessionCount = countIncludedValidRecords dir := by
  have hagg : (TemporalAggregator.aggregate dir).sessionCount =
      (dir.foldl aggFile {}).stats.count := rfl
  obtain ⟨h1, _⟩ := aggFile_foldl dir {}
  rw [hagg, h1, foldl_add_count]
  simp only [countIncludedValidRecords, collectedStabilities]
  rw [List.length_flatten]
  simp [List.map_map, Function.comp_def]

/-- C3 counterexample: a directory whose only file is a regular file named
with a `.txt` extension holding one record with a valid stability value.
`aggregate` skips it (extension filter), so `sessionCount = 0`, while the
number of valid records across all files of the directory is 1. -/
theorem C3_counterexample :
    (TemporalAggregator.aggregate
      [{ isRegularFile := true, extension := ".txt",
         parse := some { records := [{ stabilityScore := 1 / 2, durationMs := 3,
                                       hasStability := true, hasDuration := true }] } }]).sessionCount = 0 ∧
    countAllValidRecords
      [{ isRegularFile := true, extension := ".txt",
         parse := some { records := [{ stabilityScore := 1 / 2, durationMs := 3,
                                       hasStability := true, hasDuration := true }] } }] = 1 := by
  constructor
  · rfl
  · rfl

theorem insertionSort_pivot (p : ℚ) (rest : List ℚ) :
    List.insertionSort (fun a b => a ≤ b) (p :: rest) =
      List.insertionSort (fun a b => a ≤ b) (rest.filter (fun x => decide (x < p))) ++
      p :: List.insertionSort (fun a b => a ≤ b)
        (rest.filter (fun x => !decide (x < p))) := by
  refine @List.eq_of_perm_of_sorted ℚ (fun a b => a ≤ b) inferInstance _ _ ?_ ?_ ?_
  · refine (List.perm_insertionSort _ _).trans (List.Perm.symm ?_)
    refine List.Perm.trans List.perm_middle ?_
    refine List.Perm.cons p ?_
    refine List.Perm.trans
      (List.Perm.append (List.perm_insertionSort _ _) (List.perm_insertionSort _ _)) ?_
    exact List.filter_append_perm _ rest
  · exact List.sorted_insertionSort _ _
  · apply List.pairwise_append.mpr
    refine ⟨List.sorted_insertionSort _ _, ?_, ?_⟩
    · apply List.sorted_cons.mpr
      refine ⟨?_, List.sorted_insertionSort _ _⟩
      intro b hb
      have hb2 := (List.mem_filter.mp ((List.mem_insertionSort _).mp hb)).2
      exact le_of_not_lt (by simpa using hb2)
    · intro a ha b hb
      have ha2 := (List.mem_filter.mp ((List.mem_insertionSort _).mp ha)).2
      have hap : a < p := by simpa using ha2
      rcases List.mem_cons.mp hb with rfl | hb
      · exact le_of_lt hap
      · have hb2 := (List.mem_filter.mp ((List.mem_insertionSort _).mp hb)).2
        exact le_trans (le_of_lt hap) (le_of_not_lt (by simpa using hb2))

theorem filter_partition_length (p : ℚ) (rest : List ℚ) :
    (rest.filter (fun x => decide (x < p))).length +
      (rest.filter (fun x => !decide (x < p))).length = rest.length := by
  have h := (List.filter_append_perm (fun x => decide (x < p)) rest).length_eq
  simpa using h

theorem nthElement_eq_sorted_getD : ∀ (n : Nat) (l : List ℚ) (k : Nat),
    l.length ≤ n → k < l.length →
    nthElement l k = (List.insertionSort (fun a b => a ≤ b) l).getD k 0 := by
  intro n
  induction n with
  | zero =>
    intro l k hl hk
    omega
  | succ n ih =>
    intro l k hl hk
    match l with
    | [] => simp at hk
    | p :: rest =>
      have hrest : rest.length ≤ n := by
        simpa using Nat.le_of_succ_le_succ hl
      have hk1 : k < rest.length + 1 := by simpa using hk
      have hpart := filter_partition_length p rest
      rw [nthElement, insertionSort_pivot p rest]
      by_cases h1 : k < (rest.filter (fun x => decide (x < p))).length
      · rw [if_pos h1, ih _ k (le_trans (List.length_filter_le _ _) hrest) h1,
          List.getD_eq_getElem?_getD, List.getD_eq_getElem?_getD,
          List.getElem?_append_left (by rwa [List.length_insertionSort])]
      · by_cases h2 : k = (rest.filter (fun x => decide (x < p))).length
        · rw [if_neg h1, if_pos h2, List.getD_eq_getElem?_getD,
            List.getElem?_append_right (by rw [List.length_insertionSort]; omega),
            List.length_insertionSort, h2]
          simp
        · have hk2 : k - (rest.filter (fun x => decide (x < p))).length - 1 <
              (rest.filter (fun x => !decide (x < p))).length := by omega
          rw [if_neg h1, if_neg h2,
            ih _ _ (le_trans (List.length_filter_le _ _) hrest) hk2,
            List.getD_eq_getElem?_getD, List.getD_eq_getElem?_getD,
            List.getElem?_append_right (by rw [List.length_insertionSort]; omega),
            List.length_insertionSort]
          have hsub : k - (rest.filter (fun x => decide (x < p))).length =
              (k - (rest.filter (fun x => decide (x < p))).length - 1) + 1 := by omega
          rw [hsub, List.getElem?_cons_succ]
          simp

theorem computePercentile_eq_specSortedRank (vs : List ℚ) (p : ℚ) :
    computePercentile vs p = specSortedRank vs p := by
  by_cases h0 : vs.length = 0
  · simp [computePercentile, specSortedRank, h0]
  · by_cases h1 : vs.length = 1
    · obtain ⟨v, rfl⟩ := List.length_eq_one.mp h1
      simp [computePercentile, specSortedRank, List.insertionSort, List.orderedInsert]
    · have hclamped0 : 0 ≤ min (max p 0) 1 := le_min (le_max_right _ _) zero_le_one
      have hclamped1 : min (max p 0) 1 ≤ 1 := min_le_right _ _
      have hlen1 : (1 : ℚ) ≤ (vs.length : ℚ) := by
        exact_mod_cast Nat.one_le_iff_ne_zero.mpr h0
      have hmul : min (max p 0) 1 * ((vs.length : ℚ) - 1) ≤ (vs.length : ℚ) - 1 :=
        mul_le_of_le_one_left (by linarith) hclamped1
      have hfloor : ⌊min (max p 0) 1 * ((vs.length : ℚ) - 1)⌋ ≤ (vs.length : ℤ) - 1 := by
        have hcast : ((vs.length : ℚ) - 1) = (((vs.length : ℤ) - 1 : ℤ) : ℚ) := by
          push_cast
          ring
        calc ⌊min (max p 0) 1 * ((vs.length : ℚ) - 1)⌋ ≤ ⌊((vs.length : ℚ) - 1)⌋ :=
              Int.floor_le_floor hmul
          _ = (vs.length : ℤ) - 1 := by rw [hcast, Int.floor_intCast]
      have hlen0 : 1 ≤ vs.length := Nat.one_le_iff_ne_zero.mpr h0
      have hidx : (⌊min (max p 0) 1 * ((vs.length : ℚ) - 1)⌋).toNat < vs.length := by
        omega
      simp only [computePercentile, specSortedRank]
      rw [if_neg h0, if_neg h0, if_neg h1]
      exact nthElement_eq_sorted_getD vs.length vs _ (le_refl _) hidx

/-- C5: the aggregator's `driftPercentile` is the element of rank
`floor(0.95 * (n-1))` of the sorted list of collected durations, with the
requested percentile clamped to `[0,1]` (the partial-selection `nthElement`
agrees with full sorting); a single-element list returns that element, the
empty list returns 0, and on `[10, 20, 30, 40, 50]` the 95th percentile
equals 40. -/
theorem C5_drift_percentile :
    (∀ dir : List DirEntry,
      (TemporalAggregator.aggregate dir).driftPercentile =
        specSortedRank (collectedDurations dir) (95 / 100)) ∧
    (∀ (vs : List ℚ) (p : ℚ), computePercentile vs p = specSortedRank vs p) ∧
    computePercentile ([10, 20, 30, 40, 50] : List ℚ) (95 / 100) = 40 ∧
    computePercentile ([] : List ℚ) (95 / 100) = 0 ∧
    (∀ v : ℚ, computePercentile [v] (95 / 100) = v) := by
  refine ⟨?_, computePercentile_eq_specSortedRank, ?_, rfl, ?_⟩
  · intro dir
    have hagg : (TemporalAggregator.aggregate dir).driftPercentile =
        computePercentile (dir.foldl aggFile {}).durations (95 / 100) := rfl
    obtain ⟨_, h2⟩ := aggFile_foldl dir {}
    rw [hagg, h2]
    simpa using computePercentile_eq_specSortedRank (collectedDurations dir) (95 / 100)
  · rw [computePercentile_eq_specSortedRank]
    have h1 : min (max ((95 : ℚ) / 100) 0) 1 = 95 / 100 := by
      rw [max_eq_left (by norm_num), min_eq_left (by norm_num)]
    have h2 : (⌊((95 : ℚ) / 100) *
        ((([10, 20, 30, 40, 50] : List ℚ).length : ℚ) - 1)⌋).toNat = 3 := by
      have hx : ((95 : ℚ) / 100) *
          ((([10, 20, 30, 40, 50] : List ℚ).length : ℚ) - 1) = 19 / 5 := by
        norm_num
      rw [hx, show ⌊((19 : ℚ) / 5)⌋ = 3 from by norm_num]
      rfl
    simp only [specSortedRank, h1, h2]
    rw [if_neg (by norm_num)]
    decide
  · intro v
    simp [computePercentile]

theorem clamp01_normalizedVariance (vs : List ℚ) :
    clamp01 (computeNormalizedVariance vs) = specNormalizedVariance vs := by
  by_cases h : vs.length < 2
  · simp only [computeNormalizedVariance, specNormalizedVariance,
      naiveSampleVariance, if_pos h, zero_div]
  · simp only [computeNormalizedVariance, specNormalizedVariance,
      naiveSampleVariance, naiveMean, if_neg h, pow_two]

theorem clamp01_eq_min (x : ℚ) (hx : 0 ≤ x) : clamp01 x = min x 1 := by
  rw [clamp01, if_neg (not_lt.mpr hx)]
  by_cases h1 : x > 1
  · rw [if_pos h1, min_eq_right (le_of_lt h1)]
  · rw [if_neg h1, min_eq_left (not_lt.mp h1)]

/-- C6: `evaluate` returns stability score 1 and sample count 0 on the empty
record list, and on every record list its stability score equals
`1 - average(normalized entropy variance, normalized duration variance,
min(driftMs/1000, 1))` clamped to `[0,1]`, where each normalized variance is
the Bessel-corrected sample variance (0 below 2 records) divided by
`(|mean|+1)^2` and clamped to `[0,1]`. -/
theorem C6_evaluate_score (records : List AnchorTelemetryRecord) :
    (TemporalScoring.evaluate records).stabilityScore = specStabilityScore records ∧
    (TemporalScoring.evaluate records).sampleCount = records.length ∧
    (TemporalScoring.evaluate ([] : List AnchorTelemetryRecord)).stabilityScore = 1 ∧
    (TemporalScoring.evaluate ([] : List AnchorTelemetryRecord)).sampleCount = 0 := by
  refine ⟨?_, ?_, rfl, rfl⟩
  · by_cases h : records.isEmpty
    · obtain rfl : records = [] := List.isEmpty_iff.mp h
      simp only [TemporalScoring.evaluate, List.isEmpty_nil, if_true,
        specStabilityScore, specNormalizedVariance, naiveSampleVariance,
        naiveMean, maxDriftMs, List.map_nil, List.filter_nil]
      norm_num [clamp01]
    · simp only [TemporalScoring.evaluate, h, Bool.false_eq_true, if_false,
        specStabilityScore]
      rw [clamp01_normalizedVariance, clamp01_normalizedVariance,
        clamp01_eq_min _ (div_nonneg (abs_nonneg _) (by norm_num))]
  · simp only [TemporalScoring.evaluate]
    split <;> rfl

/-- C7: the summary JSON document carries every value under both its modern
field name and its legacy alias simultaneously, and for a summary produced by
`aggregate` the two spellings of each value are equal. -/
theorem C7_summary_aliases (summary : Summary) (srcDir : String)
    (dir : List DirEntry) :
    ((TemporalAggregator.writeSummary summary srcDir).lookup "sessionCount" =
        some (JsonValue.nat summary.sessionCount) ∧
     (TemporalAggregator.writeSummary summary srcDir).lookup "session_count" =
        some (JsonValue.nat summary.sessionCount) ∧
     (TemporalAggregator.writeSummary summary srcDir).lookup "meanStability" =
        some (JsonValue.num summary.meanStability) ∧
     (TemporalAggregator.writeSummary summary srcDir).lookup "mean_stability" =
        some (JsonValue.num summary.meanStability) ∧
     (TemporalAggregator.writeSummary summary srcDir).lookup "variance" =
        some (JsonValue.num summary.variance) ∧
     (TemporalAggregator.writeSummary summary srcDir).lookup "stability_variance" =
        some (JsonValue.num summary.stabilityVariance) ∧
     (TemporalAggregator.writeSummary summary srcDir).lookup "driftPercentile" =
        some (JsonValue.num summary.driftPercentile) ∧
     (TemporalAggregator.writeSummary summary srcDir).lookup "drift_index" =
        some (JsonValue.num summary.driftIndex) ∧
     (TemporalAggregator.writeSummary summary srcDir).lookup "sourceDirectory" =
        some (JsonValue.str srcDir) ∧
     (TemporalAggregator.writeSummary summary srcDir).lookup "source_directory" =
        some (JsonValue.str srcDir)) ∧
    ((TemporalAggregator.writeSummary (TemporalAggregator.aggregate dir)
        srcDir).lookup "sessionCount" =
      (TemporalAggregator.writeSummary (TemporalAggregator.aggregate dir)
        srcDir).lookup "session_count" ∧
     (TemporalAggregator.writeSummary (TemporalAggregator.aggregate dir)
        srcDir).lookup "meanStability" =
      (TemporalAggregator.writeSummary (TemporalAggregator.aggregate dir)
        srcDir).lookup "mean_stability" ∧
     (TemporalAggregator.writeSummary (TemporalAggregator.aggregate dir)
        srcDir).lookup "variance" =
      (TemporalAggregator.writeSummary (TemporalAggregator.aggregate dir)
        srcDir).lookup "stability_variance" ∧
     (TemporalAggregator.writeSummary (TemporalAggregator.aggregate dir)
        srcDir).lookup "driftPercentile" =
      (TemporalAggregator.writeSummary (TemporalAggregator.aggregate dir)
        srcDir).lookup "drift_index" ∧
     (TemporalAggregator.writeSummary (TemporalAggregator.aggregate dir)
        srcDir).lookup "sourceDirectory" =
      (TemporalAggregator.writeSummary (TemporalAggregator.aggregate dir)
        srcDir).lookup "source_directory") :=
  ⟨⟨rfl, rfl, rfl, rfl, rfl, rfl, rfl, rfl, rfl, rfl⟩,
   rfl, rfl, rfl, rfl, rfl⟩

end Clamp
